import Mathlib

/-!
Verification development for the `file_watcher` repository
(src/file_watcher.py, src/sql_wrapper.py, src/find_duplicates.py).

The Python sources are shallowly embedded: SQLite tables become Lean
lists (`file_state` is a `List FileRow`, `db_info` is a
`List (String × String)`, both in insertion order with the PRIMARY KEY
constraint modelled by the insert operations), file contents become
`List Nat` byte lists, and the thread/queue structure of the pipeline
becomes explicit request/response lists.  All definitions are
executable.
-/

/-- Python `str.replace(old, new)` on character lists: replaces every
non-overlapping occurrence of `pat` left to right.  The `fuel`
argument is an upper bound on the recursion depth (the input length
suffices since each step consumes at least one character); callers
pass `s.length`.  Only called with `pat ≠ []`. -/
def pyReplaceGo (pat rep : List Char) : Nat → List Char → List Char
  | _, [] => []
  | 0, s => s
  | Nat.succ fuel, c :: rest =>
    if pat.isPrefixOf (c :: rest) then
      rep ++ pyReplaceGo pat rep fuel ((c :: rest).drop pat.length)
    else
      c :: pyReplaceGo pat rep fuel rest

/-- Python `s.replace(oldPat, newPat)`.  For an empty `oldPat`, Python
intersperses `newPat` around every character; otherwise every
non-overlapping occurrence is replaced left to right. -/
def pyReplace (s oldPat newPat : String) : String :=
  if oldPat.isEmpty then
    String.mk (newPat.data ++ s.data.flatMap (fun c => c :: newPat.data))
  else
    String.mk (pyReplaceGo oldPat.data newPat.data s.data.length s.data)

/-- Python truthiness of a `str` value: `bool(s)` is `True` exactly
when the string is non-empty (src/file_watcher.py line 131 applies
`bool` to the raw `--resume` option string). -/
def pyBoolOfStr (s : String) : Bool := !(s.isEmpty)

/-- Value of a non-empty digit string, `none` on a non-digit
character or an empty string. -/
def digitsVal (l : List Char) : Option Nat :=
  if l.isEmpty then none
  else l.foldl (fun acc c =>
    match acc with
    | none => none
    | some a => if c.isDigit then some (a * 10 + (c.toNat - 48)) else none) (some 0)

/-- Python `int(s)` on the decimal strings this program writes to the
metadata table (an optional minus sign followed by digits); `none`
models a `ValueError`. -/
def pyInt (s : String) : Option Int :=
  match s.data with
  | '-' :: rest => (digitsVal rest).map (fun n => -(n : Int))
  | l => (digitsVal l).map (fun n => (n : Int))

/-- Split a character list at every occurrence of `sep`; Python
`s.split(sep)` for a one-character separator (the empty string splits
to a single empty field, as in Python). -/
def splitOnChar (sep : Char) : List Char → List (List Char)
  | [] => [[]]
  | c :: rest =>
    let r := splitOnChar sep rest
    if c == sep then [] :: r
    else
      match r with
      | [] => [[c]]
      | h :: t => (c :: h) :: t

/-- Python `raw.split(chr(59))` — the semicolon split applied to the
persisted excludes metadata (src/file_watcher.py line 138). -/
def pySplitSemicolons (s : String) : List String :=
  (splitOnChar ';' s.data).map String.mk

/-- Lowercased character list of a string; models the effect of
compiling the exclusion patterns with `re.IGNORECASE`
(src/file_watcher.py line 147). -/
def lcChars (s : String) : List Char := s.data.map Char.toLower

/-- Model of `compiled_pattern.search(target, pos)` for an exclusion
pattern that is a literal string (the regular-expression features of
`re` beyond literal, case-insensitive matching are not needed by any
claim).  Returns `true` iff an occurrence of `pat` starts at some
index `i ≥ pos` of `target`, comparing case-insensitively because the
pattern was compiled with `re.IGNORECASE`. -/
def patternSearchFrom (pat target : String) (pos : Nat) : Bool :=
  (List.range (target.data.length + 1)).any
    (fun i => decide (pos ≤ i) && (lcChars pat).isPrefixOf ((lcChars target).drop i))

/-- Numeric value of the Python constant `re.IGNORECASE`, which
src/file_watcher.py line 76 passes as the second positional argument
(`pos`) of `Pattern.search`. -/
def re_IGNORECASE : Nat := 2

/-- POSIX `os.path.join(d, n)` for a non-absolute component `n` and a
directory path `d` without a trailing slash, as produced by the tree
walker. -/
def pathJoin (d n : String) : String := d ++ "/" ++ n

/-- Index just past the last slash of `p` (Python
`p.rfind(chr(47)) + 1` inside `posixpath.dirname`). -/
def lastSlashSplit (l : List Char) : Nat :=
  ((List.range l.length).filter (fun i => l.getD i ' ' == '/')).foldl (fun _ i => i + 1) 0

/-- Strip trailing slashes (Python `head.rstrip(chr(47))`). -/
def rstripSlash (l : List Char) : List Char :=
  (l.reverse.dropWhile (fun c => c == '/')).reverse

/-- Python `os.path.dirname` (POSIX): take everything up to and
including the last slash, then strip trailing slashes unless the
head is empty or consists only of slashes. -/
def posixDirname (p : String) : String :=
  let l := p.data
  let head := l.take (lastSlashSplit l)
  if head ≠ [] ∧ ¬ (head.all (fun c => c == '/')) then String.mk (rstripSlash head)
  else String.mk head

/-- `FileFingerprintRequest` from src/file_watcher.py lines 17-19. -/
structure FileFingerprintRequest where
  last_request : Bool
  requested_filename : String
deriving DecidableEq, Repr

/-- `FileFingerprintResponse` from src/file_watcher.py lines 21-26. -/
structure FileFingerprintResponse where
  filename : String
  sha384 : String
  file_size : Int
  success : Bool
  last_response : Bool
deriving DecidableEq, Repr

/-- One row of the `file_state` SQLite table
(src/sql_wrapper.py lines 22-27). -/
structure FileRow where
  filename : String
  directory : String
  sha384 : String
  filesize : Int
deriving DecidableEq, Repr

/-- `FileDBWrapper._does_metadata_key_exist` (src/sql_wrapper.py lines
41-45): fetch all `db_info` rows with the given key and test that the
result has length one. -/
def does_metadata_key_exist (db : List (String × String)) (key : String) : Bool :=
  (db.filter (fun kv => kv.1 == key)).length == 1

/-- `FileDBWrapper._write_or_update_single_metadatum`
(src/sql_wrapper.py lines 47-56).  When the key exists it executes
`UPDATE db_info SET value = ? WHERE key = ?` with the parameter tuple
`(key, value)`, so the first placeholder (the new cell value) is bound
to `key` and the second (the row selector) to `value`: rows whose key
column equals the `value` argument get their value column set to the
`key` argument.  Otherwise it inserts `(key, value)`. -/
def write_or_update_single_metadatum (db : List (String × String)) (key value : String) :
    List (String × String) :=
  if does_metadata_key_exist db key then
    db.map (fun kv => if kv.1 == value then (kv.1, key) else kv)
  else
    db ++ [(key, value)]

/-- Error raised by SQLite when an INSERT violates a PRIMARY KEY
constraint (`sqlite3.IntegrityError`). -/
inductive DBError where
  | duplicateKey
deriving DecidableEq, Repr

/-- `FileDBWrapper._write_single_metadatum` (src/sql_wrapper.py lines
58-61): a plain INSERT into `db_info`, whose `key` column is the
PRIMARY KEY, so inserting an existing key raises `IntegrityError`. -/
def write_single_metadatum (db : List (String × String)) (key value : String) :
    Except DBError (List (String × String)) :=
  if db.any (fun kv => kv.1 == key) then Except.error DBError.duplicateKey
  else Except.ok (db ++ [(key, value)])

/-- `FileDBWrapper.get_metadata_value` (src/sql_wrapper.py lines
63-67): returns `fetchall()[0][0]`; `none` models the `IndexError`
raised when the key is absent. -/
def get_metadata_value (db : List (String × String)) (key : String) : Option String :=
  ((db.filter (fun kv => kv.1 == key)).map Prod.snd).head?

/-- `FileDBWrapper.update_start_metadata` (src/sql_wrapper.py lines
69-72): reads `number_restarts`, increments it, and calls the
update-or-insert helper for `number_restarts` and then for
`last_resume_time`, passing the stringified counter as the value both
times; the `latest_update_time` argument is not used by the body. -/
def update_start_metadata (latest_update_time : String) (db : List (String × String)) :
    Option (List (String × String)) :=
  match get_metadata_value db "number_restarts" with
  | none => none
  | some s =>
    match pyInt s with
    | none => none
    | some n =>
      let db1 := write_or_update_single_metadatum db "number_restarts" (toString (n + 1))
      some (write_or_update_single_metadatum db1 "last_resume_time" (toString (n + 1)))

/-- `FileDBWrapper.write_end_metadata` (src/sql_wrapper.py lines
81-82): a single insert-only write of the `end_time` key. -/
def write_end_metadata (db : List (String × String)) (end_time : String) :
    Except DBError (List (String × String)) :=
  write_single_metadatum db "end_time" end_time

/-- `FileDBWrapper.does_file_exist` (src/sql_wrapper.py lines 84-88):
fetch all `file_state` rows with the given filename and test that the
result has length one. -/
def does_file_exist (tbl : List FileRow) (filename : String) : Bool :=
  (tbl.filter (fun r => r.filename == filename)).length == 1

/-- `FileDBWrapper.record_file` (src/sql_wrapper.py lines 90-97):
INSERT of a `file_state` row whose `filename` column is the PRIMARY
KEY; a duplicate key raises `IntegrityError`, which the Python wrapper
logs and re-raises, leaving the table unchanged.  The result pairs the
outcome with the table after the call. -/
def record_file (tbl : List FileRow) (filename sha384 : String) (file_size : Int) :
    Except DBError Unit × List FileRow :=
  if tbl.any (fun r => r.filename == filename) then
    (Except.error DBError.duplicateKey, tbl)
  else
    (Except.ok (), tbl ++ [FileRow.mk filename (posixDirname filename) sha384 file_size])

/-- `FileDBWrapper.get_duplicate_sha384` (src/sql_wrapper.py lines
100-103): `SELECT sha384, COUNT(*) ... GROUP BY sha384 HAVING
COUNT(*) > 1`, modelled as the distinct digests whose row count
exceeds one (SQLite leaves the group order unspecified). -/
def get_duplicate_sha384 (tbl : List FileRow) : List String :=
  ((tbl.map (fun r => r.sha384)).dedup).filter
    (fun h => 1 < (tbl.filter (fun r => r.sha384 == h)).length)

/-- `FileDBWrapper.get_files_for_sha384hash` (src/sql_wrapper.py lines
105-108). -/
def get_files_for_sha384hash (tbl : List FileRow) (sha384 : String) : List String :=
  (tbl.filter (fun r => r.sha384 == sha384)).map (fun r => r.filename)

/-- The loop of `find_duplicates.main` (src/find_duplicates.py lines
15-22): one report entry per duplicated digest, pairing the digest
with the filenames that share it. -/
def find_duplicates_collect (tbl : List FileRow) : List (String × List String) :=
  (get_duplicate_sha384 tbl).map (fun h => (h, get_files_for_sha384hash tbl h))

/-- Outcome of a Python call of `FileDBWrapper(...)`. -/
inductive PyInit where
  | typeError
  | fileExistsError
  | constructed (resume_effective : Bool)
deriving DecidableEq, Repr

/-- A Python call of the `FileDBWrapper` constructor
(src/sql_wrapper.py lines 8-18).  `resume_arg = none` models a call
site that omits the required positional `resume` parameter, which
raises `TypeError` before the body runs (src/find_duplicates.py line
14 is such a call site).  Otherwise the body raises
`FileExistsError` when the store path exists and `resume` is false,
degrades to a fresh run when the path is missing and `resume` is
true, and records the effective resume flag. -/
def FileDBWrapper_init (path_exists : Bool) (resume_arg : Option Bool) : PyInit :=
  match resume_arg with
  | none => PyInit.typeError
  | some resume =>
    if path_exists && !resume then PyInit.fileExistsError
    else if !path_exists && resume then PyInit.constructed false
    else PyInit.constructed resume

/-- Read chunk size of the digest engine: `16*1024*1024` bytes
(src/file_watcher.py line 33). -/
def chunkSize : Nat := 16 * 1024 * 1024

/-- Environment of one `calculate_fingerprints_regularfile` call:
`content` is the byte content delivered by successive `file.read`
calls, `statSize` is the `st_size` from `os.stat` (`none` models a
raised `OSError`), `openOk` models whether `open` succeeds, and
`readFailsAt = some k` makes the `k`-th `read` call raise (the file
disappearing or an I/O error mid-read). -/
structure FileModel where
  content : List Nat
  statSize : Option Int
  openOk : Bool
  readFailsAt : Option Nat
deriving Repr

/-- The `while chunk := file.read(...)` loop of
src/file_watcher.py lines 33-35: the `i`-th read call either raises
(when `readFailsAt = some i`), or yields the next `chunkSize` bytes of
the remaining content; the loop stops at the first empty chunk, having
fed `fed` (the concatenation of all chunks so far, as consumed by the
incremental `hash.update` calls).  `fuel` bounds the recursion; one
more than the remaining length always suffices. -/
def feedGo (readFailsAt : Option Nat) : Nat → List Nat → Nat → List Nat → Option (List Nat)
  | 0, _, _, _ => none
  | Nat.succ fuel, remaining, i, fed =>
    if readFailsAt == some i then none
    else
      let chunk := remaining.take chunkSize
      if chunk.isEmpty then some fed
      else feedGo readFailsAt fuel (remaining.drop chunkSize) (i + 1) (fed ++ chunk)

/-- Run the read loop of the digest engine over a whole file. -/
def readAll (readFailsAt : Option Nat) (content : List Nat) : Option (List Nat) :=
  feedGo readFailsAt (content.length + 1) content 0 []

/-- The response built by the bare `except` branch of
`calculate_fingerprints_regularfile` (src/file_watcher.py lines
43-50). -/
def failResponse (fpath : String) : FileFingerprintResponse :=
  FileFingerprintResponse.mk fpath "" (-1) false false

/-- `calculate_fingerprints_regularfile` (src/file_watcher.py lines
28-50), parameterised by the SHA-384 hex-digest function on byte
lists (`hashlib` guarantees that the chained `hash.update(chunk)`
calls digest the concatenation of the chunks).  `os.stat` runs first,
then `open`, then the read loop; any raised error is absorbed by the
bare `except` into the failure response. -/
def calculate_fingerprints_regularfile (sha384hex : List Nat → String) (fpath : String)
    (fm : FileModel) : FileFingerprintResponse :=
  match fm.statSize with
  | none => failResponse fpath
  | some sz =>
    if fm.openOk then
      match readAll fm.readFailsAt fm.content with
      | some fed => FileFingerprintResponse.mk fpath (sha384hex fed) sz true false
      | none => failResponse fpath
    else failResponse fpath

/-- The termination acknowledgment a worker publishes on a terminal
request (src/file_watcher.py line 64). -/
def termAckResponse : FileFingerprintResponse :=
  FileFingerprintResponse.mk "" "" (-1) false true

/-- The worker loop `file_fingerprint` (src/file_watcher.py lines
52-66) as a function from the stream of requests the worker receives
from the shared queue to the responses it publishes, parameterised by
the digest engine (`digest f` is the response for file `f`).  On a
non-terminal request it publishes the digest response and loops; on a
terminal request it publishes one acknowledgment and breaks, so
requests after the first terminal one are never consumed.  An
exhausted stream models the worker blocking on an empty queue. -/
def file_fingerprint (digest : String → FileFingerprintResponse) :
    List FileFingerprintRequest → List FileFingerprintResponse
  | [] => []
  | req :: rest =>
    if req.last_request then [termAckResponse]
    else digest req.requested_filename :: file_fingerprint digest rest

/-- `_strip_base_path` (src/file_watcher.py lines 68-69):
`path.replace(base_path, chr(34)*0)` removes every occurrence of
`base_path` from `path`, not only a leading one. -/
def strip_base_path (path base_path : String) : String :=
  pyReplace path base_path ""

/-- One entry of a directory listing, as classified by
`os.path.isfile` / `os.path.isdir`; `other` covers entries that are
neither (for example broken symlinks). -/
inductive DirEntry where
  | file (name : String)
  | dir (name : String)
  | other (name : String)
deriving DecidableEq, Repr

/-- Name of a listing entry, as returned by `os.listdir`. -/
def entryName : DirEntry → String
  | DirEntry.file n => n
  | DirEntry.dir n => n
  | DirEntry.other n => n

/-- Whether `os.path.isfile(os.path.join(dir_path, n))` holds,
relative to the modelled listing of `dir_path`. -/
def isFileIn (listing : List DirEntry) (n : String) : Bool :=
  listing.any (fun e => match e with
    | DirEntry.file m => m == n
    | _ => false)

/-- Whether `os.path.isdir(os.path.join(dir_path, n))` holds,
relative to the modelled listing of `dir_path`. -/
def isDirIn (listing : List DirEntry) (n : String) : Bool :=
  listing.any (fun e => match e with
    | DirEntry.dir m => m == n
    | _ => false)

/-- The exclusion pass of src/file_watcher.py lines 75-76: for each
compiled pattern in turn, keep only the names for which
`exc.search(f, re.IGNORECASE)` is `None` — `re.IGNORECASE` (= 2) is
passed in the `pos` position of `Pattern.search`, so the search for
each name starts at index 2. -/
def applyExcludes (excludes : List String) (names : List String) : List String :=
  excludes.foldl
    (fun fl exc => fl.filter (fun f => !(patternSearchFrom exc f re_IGNORECASE))) names

/-- One call of `list_and_process_directory` (src/file_watcher.py
lines 71-98) on a directory `dir_path` with the given listing, against
a snapshot `tbl` of the `file_state` table.  Returns the pair of
(full paths enqueued as fingerprint requests in order, full subdir
paths the final loop recurses into in order).  The backpressure wait
(lines 87-89) only sleeps and is behaviourally a no-op here. -/
def list_and_process_directory (excludes : List String) (base_path : String)
    (tbl : List FileRow) (dir_path : String) (listing : List DirEntry) :
    List String × List String :=
  let file_list := applyExcludes excludes (listing.map entryName)
  let files_in_dir := file_list.filter (isFileIn listing)
  let subdir_in_dir := file_list.filter (isDirIn listing)
  let enqueued := files_in_dir.filterMap (fun fname =>
    if does_file_exist tbl (strip_base_path (pathJoin dir_path fname) base_path) then none
    else some (pathJoin dir_path fname))
  (enqueued, subdir_in_dir.map (fun dn => pathJoin dir_path dn))

/-- Outcome of the Collector thread `write_file_state`: it either
exits its loop normally (`finished`, countdown reached zero), dies on
a propagated store error (`crashed`), or blocks forever on an empty
results channel with a positive countdown (`blocked`). -/
inductive CollectorResult where
  | finished (records : List FileRow)
  | crashed (records : List FileRow)
  | blocked
deriving DecidableEq, Repr

/-- The Collector loop `write_file_state` (src/file_watcher.py lines
100-113) over the stream of responses it consumes from the results
channel, with countdown `num_workers` and the current `file_state`
table `recs` (the Collector opens its own handle to the same store).
A successful response is recorded via `record_file` with the base
directory stripped by `str.replace`; a termination ack decrements the
countdown; other responses are dropped. -/
def write_file_state (base_dir : String) :
    List FileFingerprintResponse → Nat → List FileRow → CollectorResult
  | _, 0, recs => CollectorResult.finished recs
  | [], Nat.succ _, _ => CollectorResult.blocked
  | resp :: rest, Nat.succ n, recs =>
    if resp.success then
      match record_file recs (pyReplace resp.filename base_dir "") resp.sha384 resp.file_size with
      | (Except.ok _, recs2) => write_file_state base_dir rest (Nat.succ n) recs2
      | (Except.error _, recs2) => CollectorResult.crashed recs2
    else if resp.last_response then write_file_state base_dir rest n recs
    else write_file_state base_dir rest (Nat.succ n) recs

/-- Number of responses in a stream that the Collector treats as
termination acknowledgments (`not success` and `last_response`). -/
def countAcks (resps : List FileFingerprintResponse) : Nat :=
  (resps.filter (fun r => !r.success && r.last_response)).length

/-- The store keys (base-stripped filenames) of the successful
responses of a stream, in order. -/
def successKeys (base_dir : String) (resps : List FileFingerprintResponse) : List String :=
  (resps.filter (fun r => r.success)).map (fun r => pyReplace r.filename base_dir "")

/-- The resume branch of `main` (src/file_watcher.py lines 136-143):
read the `excludes` metadata back, split it on semicolons into the
effective exclusion list, and run `update_start_metadata` (the
`datetime.now()` argument is irrelevant to the body).  Returns the
effective exclusion list and the metadata table after the branch;
`none` models a propagated `IndexError`/`ValueError`. -/
def main_resume_branch (db : List (String × String)) :
    Option (List String × List (String × String)) :=
  match get_metadata_value db "excludes" with
  | none => none
  | some raw =>
    match update_start_metadata "now" db with
    | none => none
    | some db2 => some (pySplitSemicolons raw, db2)

theorem list_map_id_of_mem {α : Type} (f : α → α) :
    ∀ (l : List α), (∀ a ∈ l, f a = a) → l.map f = l := by
  intro l h
  induction l with
  | nil => rfl
  | cons a t ih =>
    simp only [List.map_cons, h a (by simp), ih (fun x hx => h x (by simp [hx]))]

theorem chunkSize_pos : 0 < chunkSize := by decide

theorem feedGo_none_eq :
    ∀ (fuel : Nat) (remaining : List Nat) (i : Nat) (fed : List Nat),
      remaining.length < fuel →
      feedGo none fuel remaining i fed = some (fed ++ remaining) := by
  intro fuel
  induction fuel with
  | zero => intro remaining i fed h; exact absurd h (Nat.not_lt_zero _)
  | succ fuel ih =>
    intro remaining i fed h
    match remaining with
    | [] => simp [feedGo]
    | c :: rest =>
      have htake : ((c :: rest).take chunkSize).isEmpty = false := by
        rw [List.isEmpty_eq_false]
        intro hnil
        rcases List.take_eq_nil_iff.mp hnil with h1 | h1
        · exact Nat.pos_iff_ne_zero.mp chunkSize_pos h1
        · exact List.cons_ne_nil c rest h1
      have hlen : ((c :: rest).drop chunkSize).length < fuel := by
        rw [List.length_drop]
        have h1 : (c :: rest).length - chunkSize ≤ (c :: rest).length - 1 :=
          Nat.sub_le_sub_left chunkSize_pos _
        have h2 : (c :: rest).length - 1 = rest.length := by simp
        have h3 : rest.length < fuel := by
          have := Nat.lt_of_succ_lt_succ (by simpa using h)
          exact this
        omega
      simp only [feedGo, htake]
      rw [if_neg (by simp), if_neg (by simp [htake])]
      rw [ih _ _ _ hlen, List.append_assoc, List.take_append_drop]

theorem feedGo_some_eq :
    ∀ (rf : Option Nat) (fuel : Nat) (remaining : List Nat) (i : Nat) (fed out : List Nat),
      feedGo rf fuel remaining i fed = some out → out = fed ++ remaining := by
  intro rf fuel
  induction fuel with
  | zero => intro remaining i fed out h; simp [feedGo] at h
  | succ fuel ih =>
    intro remaining i fed out h
    simp only [feedGo] at h
    by_cases hrf : (rf == some i) = true
    · rw [if_pos hrf] at h; simp at h
    · rw [if_neg hrf] at h
      by_cases hemp : (remaining.take chunkSize).isEmpty = true
      · rw [if_pos hemp] at h
        have hrem : remaining = [] := by
          rcases List.take_eq_nil_iff.mp (List.isEmpty_iff.mp hemp) with h1 | h1
          · exact absurd h1 (Nat.pos_iff_ne_zero.mp chunkSize_pos)
          · exact h1
        simp at h
        simp [hrem, ← h]
      · rw [if_neg hemp] at h
        have := ih _ _ _ _ h
        rw [this, List.append_assoc, List.take_append_drop]

/-- C3: For every absolute file path, the Digest Engine returns, on
success, the triple (succeeded = true, digest = SHA-384 hex digest of
the entire file content, size = the file byte count); on any failure
(missing file, permission error, I/O error, file disappearing
mid-read) it returns (succeeded = false, digest = empty, size = -1)
and never propagates the error.  First conjunct: whatever the stat,
open and read outcomes, every result is either exactly the failure
response or a success response whose digest hashes the entire content
and whose size is the stat size (totality of the embedded function is
the absence of propagation).  Second conjunct: with no failure
injected and an honest stat, the result is exactly the success
response with the byte count as size. -/
theorem C3_digest_engine_contract (sha384hex : List Nat → String) (fpath : String)
    (fm : FileModel) :
    (calculate_fingerprints_regularfile sha384hex fpath fm = failResponse fpath
      ∨ ∃ sz, fm.statSize = some sz ∧
          calculate_fingerprints_regularfile sha384hex fpath fm
            = FileFingerprintResponse.mk fpath (sha384hex fm.content) sz true false)
    ∧ (∀ content : List Nat,
        calculate_fingerprints_regularfile sha384hex fpath
            (FileModel.mk content (some (Int.ofNat content.length)) true none)
          = FileFingerprintResponse.mk fpath (sha384hex content)
              (Int.ofNat content.length) true false) := by
  constructor
  · match hstat : fm.statSize with
    | none => left; simp [calculate_fingerprints_regularfile, hstat]
    | some sz =>
      by_cases hopen : fm.openOk = true
      · match hread : readAll fm.readFailsAt fm.content with
        | none => left; simp [calculate_fingerprints_regularfile, hstat, hopen, hread]
        | some fed =>
          right
          refine ⟨sz, rfl, ?_⟩
          have hfed : fed = fm.content := by
            have := feedGo_some_eq fm.readFailsAt (fm.content.length + 1) fm.content 0 [] fed hread
            simpa using this
          simp [calculate_fingerprints_regularfile, hstat, hopen, hread, hfed]
      · left
        simp only [Bool.not_eq_true] at hopen
        simp [calculate_fingerprints_regularfile, hstat, hopen]
  · intro content
    have hread : readAll none content = some content := by
      have := feedGo_none_eq (content.length + 1) content 0 [] (Nat.lt_succ_self _)
      simpa [readAll] using this
    simp [calculate_fingerprints_regularfile, hread]

theorem countAcks_nil : countAcks [] = 0 := rfl

theorem countAcks_cons (r : FileFingerprintResponse) (rest : List FileFingerprintResponse) :
    countAcks (r :: rest)
      = (if (!r.success && r.last_response) = true then 1 else 0) + countAcks rest := by
  by_cases h : (!r.success && r.last_response) = true
  · simp [countAcks, List.filter_cons, h, Nat.add_comm]
  · simp [countAcks, List.filter_cons, h]

theorem countAcks_append (a b : List FileFingerprintResponse) :
    countAcks (a ++ b) = countAcks a + countAcks b := by
  simp [countAcks, List.filter_append]

theorem countAcks_of_perm (a b : List FileFingerprintResponse) (h : a.Perm b) :
    countAcks a = countAcks b := by
  simp only [countAcks, ← List.countP_eq_length_filter]
  exact h.countP_eq _

theorem successKeys_cons (base : String) (r : FileFingerprintResponse)
    (rest : List FileFingerprintResponse) :
    successKeys base (r :: rest)
      = if r.success = true then
          pyReplace r.filename base "" :: successKeys base rest
        else successKeys base rest := by
  by_cases h : r.success = true
  · simp [successKeys, List.filter_cons, h]
  · simp [successKeys, List.filter_cons, h]

theorem file_fingerprint_split (digest : String → FileFingerprintResponse)
    (pre post : List FileFingerprintRequest) (r : FileFingerprintRequest)
    (hpre : ∀ p ∈ pre, p.last_request = false) (hr : r.last_request = true) :
    file_fingerprint digest (pre ++ r :: post)
      = pre.map (fun p => digest p.requested_filename) ++ [termAckResponse] := by
  induction pre with
  | nil => simp [file_fingerprint, hr]
  | cons p t ih =>
    have hp : p.last_request = false := hpre p (by simp)
    simp only [List.cons_append, file_fingerprint, hp, Bool.false_eq_true, if_false,
      List.map_cons, List.append_eq]
    rw [ih (fun q hq => hpre q (by simp [hq]))]

theorem countAcks_file_fingerprint (digest : String → FileFingerprintResponse)
    (hdig : ∀ f, (digest f).last_response = false)
    (s : List FileFingerprintRequest) (hsent : ∃ r ∈ s, r.last_request = true) :
    countAcks (file_fingerprint digest s) = 1 := by
  induction s with
  | nil => simp at hsent
  | cons a t ih =>
    by_cases ha : a.last_request = true
    · simp [file_fingerprint, ha, countAcks, List.filter_cons, termAckResponse]
    · have hex : ∃ r ∈ t, r.last_request = true := by
        rcases hsent with ⟨r, hm, hrl⟩
        rcases List.mem_cons.mp hm with h | h
        · exact absurd (h ▸ hrl) ha
        · exact ⟨r, h, hrl⟩
      simp only [file_fingerprint, ha, Bool.false_eq_true, if_false]
      rw [countAcks_cons, ih hex]
      simp [hdig]

theorem countAcks_flatten (digest : String → FileFingerprintResponse)
    (hdig : ∀ f, (digest f).last_response = false)
    (streams : List (List FileFingerprintRequest))
    (hsent : ∀ s ∈ streams, ∃ r ∈ s, r.last_request = true) :
    countAcks ((streams.map (file_fingerprint digest)).flatten) = streams.length := by
  induction streams with
  | nil => simp [countAcks]
  | cons s t ih =>
    simp only [List.map_cons, List.flatten_cons, countAcks_append, List.length_cons]
    rw [countAcks_file_fingerprint digest hdig s (hsent s (by simp)),
      ih (fun q hq => hsent q (by simp [hq]))]
    omega

theorem collector_finishes (base : String) :
    ∀ (resps : List FileFingerprintResponse) (n : Nat) (recs : List FileRow),
      countAcks resps = n →
      (successKeys base resps).Nodup →
      (∀ k ∈ successKeys base resps, ∀ row ∈ recs, row.filename ≠ k) →
      ∃ recs2, write_file_state base resps n recs = CollectorResult.finished recs2 := by
  intro resps
  induction resps with
  | nil =>
    intro n recs hcount _ _
    have hn : n = 0 := by simpa [countAcks] using hcount.symm
    subst hn
    exact ⟨recs, by simp [write_file_state]⟩
  | cons r rest ih =>
    intro n recs hcount hnodup hdisj
    match n with
    | 0 => exact ⟨recs, by simp [write_file_state]⟩
    | Nat.succ m =>
      by_cases hs : r.success = true
      · -- a successful response: recorded, countdown unchanged
        have hkeys : successKeys base (r :: rest)
            = pyReplace r.filename base "" :: successKeys base rest := by
          simp [successKeys_cons, hs]
        have hany : (recs.any (fun row => row.filename == pyReplace r.filename base "")) = false := by
          rw [List.any_eq_false]
          intro row hrow
          have hne : row.filename ≠ pyReplace r.filename base "" :=
            hdisj _ (by simp [hkeys]) row hrow
          simpa using hne
        have hcount2 : countAcks rest = Nat.succ m := by
          rw [countAcks_cons] at hcount
          simpa [hs] using hcount
        have hnodup2 : (successKeys base rest).Nodup := by
          rw [hkeys] at hnodup
          exact hnodup.of_cons
        have hnotmem : pyReplace r.filename base "" ∉ successKeys base rest := by
          rw [hkeys] at hnodup
          exact (List.nodup_cons.mp hnodup).1
        have hdisj2 : ∀ k ∈ successKeys base rest,
            ∀ row ∈ recs ++ [FileRow.mk (pyReplace r.filename base "")
              (posixDirname (pyReplace r.filename base "")) r.sha384 r.file_size],
            row.filename ≠ k := by
          intro k hk row hrow
          rcases List.mem_append.mp hrow with h | h
          · exact hdisj k (by simp [hkeys, hk]) row h
          · have : row = FileRow.mk (pyReplace r.filename base "")
                (posixDirname (pyReplace r.filename base "")) r.sha384 r.file_size := by
              simpa using h
            rw [this]
            intro hEq
            exact hnotmem (by simpa [← hEq] using hk)
        rcases ih (Nat.succ m) _ hcount2 hnodup2 hdisj2 with ⟨recs2, hrec⟩
        refine ⟨recs2, ?_⟩
        simp only [write_file_state, hs, if_true, record_file, hany, Bool.false_eq_true,
          if_false]
        exact hrec
      · by_cases hl : r.last_response = true
        · -- a termination ack: countdown decremented
          have hcount2 : countAcks rest = m := by
            rw [countAcks_cons] at hcount
            simp [hs, hl] at hcount
            omega
          have hkeys : successKeys base (r :: rest) = successKeys base rest := by
            simp [successKeys_cons, hs]
          rw [hkeys] at hnodup hdisj
          rcases ih m recs hcount2 hnodup hdisj with ⟨recs2, hrec⟩
          refine ⟨recs2, ?_⟩
          simp only [write_file_state, hs, Bool.false_eq_true, if_false, hl, if_true]
          exact hrec
        · -- a failed, non-terminal response: dropped
          have hcount2 : countAcks rest = Nat.succ m := by
            rw [countAcks_cons] at hcount
            simpa [hs, hl] using hcount
          have hkeys : successKeys base (r :: rest) = successKeys base rest := by
            simp [successKeys_cons, hs]
          rw [hkeys] at hnodup hdisj
          rcases ih (Nat.succ m) recs hcount2 hnodup hdisj with ⟨recs2, hrec⟩
          refine ⟨recs2, ?_⟩
          simp only [write_file_state, hs, Bool.false_eq_true, if_false, hl]
          exact hrec

/-- C6 (amended): For any N >= 1 workers, sending exactly N
termination sentinels, one per worker, guarantees each worker
publishes exactly one termination acknowledgment and stops
permanently (requests after its first sentinel are never consumed);
and provided the store keys of the successfully digested responses
are pairwise distinct (no `record_file` duplicate-key error, which
would kill the Collector thread with its countdown still positive —
see the counterexample to the unconditional claim), the Collector's
countdown reaches zero and the process exits without deadlock.
`streams` are the request streams the N workers consume (each
containing a sentinel), `resps` is the stream the Collector consumes
— any interleaving (permutation) of the workers' outputs. -/
theorem C6_termination_liveness
    (digest : String → FileFingerprintResponse) (base_dir : String)
    (N : Nat) (streams : List (List FileFingerprintRequest))
    (resps : List FileFingerprintResponse)
    (hdig : ∀ f, (digest f).last_response = false)
    (hN : 1 ≤ N)
    (hlen : streams.length = N)
    (hsent : ∀ s ∈ streams, ∃ r ∈ s, r.last_request = true)
    (hperm : resps.Perm ((streams.map (file_fingerprint digest)).flatten))
    (hkeys : (successKeys base_dir resps).Nodup) :
    (∀ s ∈ streams, countAcks (file_fingerprint digest s) = 1)
    ∧ (∀ pre r post, (∀ p ∈ pre, p.last_request = false) → r.last_request = true →
        file_fingerprint digest (pre ++ r :: post)
          = pre.map (fun p => digest p.requested_filename) ++ [termAckResponse])
    ∧ ∃ recs, write_file_state base_dir resps N [] = CollectorResult.finished recs := by
  refine ⟨fun s hs => countAcks_file_fingerprint digest hdig s (hsent s hs),
    fun pre r post hpre hr => file_fingerprint_split digest pre post r hpre hr, ?_⟩
  have hcount : countAcks resps = N := by
    rw [countAcks_of_perm _ _ hperm, countAcks_flatten digest hdig streams hsent, hlen]
  exact collector_finishes base_dir resps N [] hcount hkeys
    (fun k hk row hrow => absurd hrow (List.not_mem_nil row))

/-- Digest engine stub used by the C6 witness: every file fails. -/
def stubDigest : String → FileFingerprintResponse := fun f => failResponse f

theorem C6_termination_liveness_witness :
    (1 ≤ 1)
    ∧ (∀ s ∈ [[FileFingerprintRequest.mk true ""]], ∃ r ∈ s, r.last_request = true)
    ∧ (∃ recs, write_file_state "" [termAckResponse] 1 [] = CollectorResult.finished recs) :=
  ⟨by decide, by decide,
    (C6_termination_liveness stubDigest "" 1 [[FileFingerprintRequest.mk true ""]]
      [termAckResponse] (fun f => rfl) (by decide) rfl (by decide) (by decide)
      (by decide)).2.2⟩

/-- Digest engine stub for the C6 counterexample: every file digests
successfully (digest H, size 1), as `calculate_fingerprints_regularfile`
does for readable files. -/
def C6_okDigest : String → FileFingerprintResponse :=
  fun f => FileFingerprintResponse.mk f "H" 1 true false

/-- Request stream of the single worker in the C6 counterexample: the
walker enqueues the two regular files /a/x/f and /a/x/a/f (base
directory /a), then main sends exactly one termination sentinel for
the one worker. -/
def C6_requests : List FileFingerprintRequest :=
  [FileFingerprintRequest.mk false "/a/x/f", FileFingerprintRequest.mk false "/a/x/a/f",
   FileFingerprintRequest.mk true ""]

/-- C6 counterexample: the unconditional claim fails on the code.
With N = 1 worker, exactly one termination sentinel is sent (first
conjunct) and the worker publishes exactly one acknowledgment (second
conjunct), yet the Collector never reaches countdown zero: under base
/a the distinct files /a/x/f and /a/x/a/f strip to the same store key
/x/f (third conjunct, the replace-all behaviour of
`_strip_base_path`), so the second `record_file` raises a
duplicate-key `IntegrityError` that kills the Collector thread with
its countdown still at 1 (fourth conjunct), and no run of the
Collector on this stream finishes (fifth conjunct). -/
theorem C6_counterexample_collector_dies_on_key_collision :
    (C6_requests.filter (fun r => r.last_request)).length = 1
    ∧ countAcks (file_fingerprint C6_okDigest C6_requests) = 1
    ∧ strip_base_path "/a/x/f" "/a" = strip_base_path "/a/x/a/f" "/a"
    ∧ write_file_state "/a" (file_fingerprint C6_okDigest C6_requests) 1 []
        = CollectorResult.crashed [FileRow.mk "/x/f" "/x" "H" 1]
    ∧ ¬ (∃ recs, write_file_state "/a" (file_fingerprint C6_okDigest C6_requests) 1 []
          = CollectorResult.finished recs) := by
  have hcrash : write_file_state "/a" (file_fingerprint C6_okDigest C6_requests) 1 []
      = CollectorResult.crashed [FileRow.mk "/x/f" "/x" "H" 1] := by decide
  refine ⟨by decide, by decide, by decide, hcrash, ?_⟩
  rintro ⟨recs, hfin⟩
  rw [hcrash] at hfin
  exact CollectorResult.noConfusion hfin

/-- Store for the C1 scenario: records a and b share digest X, c has
digest Y. -/
def C1_store : List FileRow :=
  [FileRow.mk "a" "" "X" 1, FileRow.mk "b" "" "X" 1, FileRow.mk "c" "" "Y" 1]

/-- C1: the Duplicate Finder's `main` constructs `FileDBWrapper` with
only the store path (src/find_duplicates.py line 14), omitting the
required positional `resume` parameter, so every run raises
`TypeError` before `duplicate_groups()` is ever queried — the claimed
report is never produced.  The query logic itself does satisfy the
claimed behaviour: on records a:X, b:X, c:Y the collected report is
exactly one group (X, [a, b]) omitting c, and every reported group in
that report has at least two members. -/
theorem C1_duplicate_finder_crashes_before_reporting :
    (∀ path_exists : Bool, FileDBWrapper_init path_exists none = PyInit.typeError)
    ∧ find_duplicates_collect C1_store = [("X", ["a", "b"])]
    ∧ (find_duplicates_collect C1_store).all (fun g => decide (2 ≤ g.2.length)) = true := by
  refine ⟨fun pe => rfl, by decide, by decide⟩

/-- C2: exclusion matching misses matches that start before index 2.
The pattern list contains the literal pattern abc; the entries abcfile
(a regular file) and abcdir (a directory) both match it
case-insensitively (first two conjuncts, searching from position 0),
yet one call of `list_and_process_directory` enqueues the matching
file and recurses into the matching directory (third conjunct),
because `exc.search(f, re.IGNORECASE)` passes `re.IGNORECASE` (= 2) as
the `pos` argument and so only sees matches starting at index >= 2. -/
theorem C2_matching_entries_not_skipped :
    patternSearchFrom "abc" "abcfile" 0 = true
    ∧ patternSearchFrom "abc" "abcdir" 0 = true
    ∧ list_and_process_directory ["abc"] "/r" [] "/r"
        [DirEntry.file "abcfile", DirEntry.dir "abcdir"]
      = (["/r/abcfile"], ["/r/abcdir"]) := by
  refine ⟨by decide, by decide, by decide⟩

/-- Store for the C4 scenario: one record whose key is the replace-all
stripped path. -/
def C4_store : List FileRow := [FileRow.mk "/x/f" "/x" "D" 0]

/-- C4: the store key is computed by `str.replace`, which removes
every occurrence of the base directory, not only the leading prefix:
for base /a and file /a/x/a/f the key is /x/f, not the
prefix-relative /x/a/f.  Consequently a visit of directory /a/x/a
skips file f (nothing enqueued) although the store holds no record
with the claimed key /x/a/f — the skip is driven by the /x/f
record. -/
theorem C4_store_key_strips_all_occurrences :
    strip_base_path "/a/x/a/f" "/a" = "/x/f"
    ∧ ("/x/f" : String) ≠ "/x/a/f"
    ∧ list_and_process_directory [] "/a" C4_store "/a/x/a" [DirEntry.file "f"] = ([], [])
    ∧ does_file_exist C4_store "/x/a/f" = false := by
  refine ⟨by decide, by decide, by decide, by decide⟩

/-- Metadata table of a store being resumed: written by
`write_start_metadata` with excludes foo;bar, never resumed before. -/
def C5_store : List (String × String) :=
  [("dir_base", "/r"), ("start_time", "t0"), ("last_resume_time", "t0"),
   ("number_restarts", "0"), ("excludes", "foo;bar")]

/-- C5: on resume, the effective exclusion set is indeed the
semicolon-split set read back from the excludes metadata (first
component), but the number_restarts value is NOT incremented: the
whole resume branch leaves the metadata table unchanged, because the
UPDATE inside `_write_or_update_single_metadatum` binds its parameters
in swapped order and matches no row; number_restarts still reads 0
afterwards. -/
theorem C5_resume_counter_not_incremented :
    main_resume_branch C5_store = some (["foo", "bar"], C5_store)
    ∧ get_metadata_value C5_store "number_restarts" = some "0"
    ∧ ¬ (get_metadata_value C5_store "number_restarts" = some "1") := by
  refine ⟨by decide, by decide, by decide⟩

/-- C7: `record_file` fails with a duplicate-key error, propagated to
the caller, whenever a record with the filename key already exists,
and it never updates the existing row (first conjunct: the table is
returned unchanged alongside the propagated error).  Moreover the
fingerprint table is append-only (second conjunct: every call leaves
the table unchanged or appends exactly one row) and filename
uniqueness is preserved by every call (third conjunct). -/
theorem C7_record_file_duplicate_key_append_only
    (tbl : List FileRow) (fn sha : String) (sz : Int)
    (h : ∃ r ∈ tbl, r.filename = fn) :
    record_file tbl fn sha sz = (Except.error DBError.duplicateKey, tbl)
    ∧ (∀ (tbl2 : List FileRow) (fn2 sha2 : String) (sz2 : Int),
        (record_file tbl2 fn2 sha2 sz2).2 = tbl2
        ∨ (record_file tbl2 fn2 sha2 sz2).2
            = tbl2 ++ [FileRow.mk fn2 (posixDirname fn2) sha2 sz2])
    ∧ (∀ (tbl2 : List FileRow) (fn2 sha2 : String) (sz2 : Int),
        (tbl2.map (fun r => r.filename)).Nodup →
          ((record_file tbl2 fn2 sha2 sz2).2.map (fun r => r.filename)).Nodup) := by
  refine ⟨?_, ?_, ?_⟩
  · have hany : tbl.any (fun r => r.filename == fn) = true := by
      rw [List.any_eq_true]
      rcases h with ⟨r, hm, he⟩
      exact ⟨r, hm, by simp [he]⟩
    simp [record_file, hany]
  · intro tbl2 fn2 sha2 sz2
    cases h2 : tbl2.any (fun r => r.filename == fn2) with
    | true => left; simp [record_file, h2]
    | false => right; simp [record_file, h2]
  · intro tbl2 fn2 sha2 sz2 hnd
    cases h2 : tbl2.any (fun r => r.filename == fn2) with
    | true => simpa [record_file, h2] using hnd
    | false =>
      have hnot : fn2 ∉ tbl2.map (fun r => r.filename) := by
        rw [List.any_eq_false] at h2
        intro hmem
        rcases List.mem_map.mp hmem with ⟨r, hr, he⟩
        exact h2 r hr (by simp [he])
      simp only [record_file, h2, Bool.false_eq_true, if_false, List.map_append,
        List.map_cons, List.map_nil]
      rw [List.nodup_append]
      refine ⟨hnd, List.nodup_singleton _, ?_⟩
      intro x hx hy
      simp only [List.mem_singleton] at hy
      exact hnot (hy ▸ hx)

theorem C7_record_file_duplicate_key_append_only_witness :
    (∃ r ∈ [FileRow.mk "k" "" "X" 1], r.filename = "k")
    ∧ record_file [FileRow.mk "k" "" "X" 1] "k" "Z" (2 : Int)
        = (Except.error DBError.duplicateKey, [FileRow.mk "k" "" "X" 1]) :=
  ⟨by decide,
    (C7_record_file_duplicate_key_append_only [FileRow.mk "k" "" "X" 1] "k" "Z" 2
      (by decide)).1⟩

/-- Metadata table of a store whose previous run completed (end_time
present). -/
def C8_store_done : List (String × String) :=
  [("dir_base", "/r"), ("start_time", "t0"), ("last_resume_time", "t0"),
   ("number_restarts", "0"), ("excludes", "foo"), ("end_time", "t1")]

/-- Metadata table of a run that has not written end_time yet. -/
def C8_store_fresh : List (String × String) :=
  [("dir_base", "/r"), ("start_time", "t0"), ("last_resume_time", "t0"),
   ("number_restarts", "0"), ("excludes", "foo")]

/-- C8: `write_end_metadata` uses the insert-only metadata write, so a
completing resume run against a store whose previous run already wrote
end_time raises a duplicate-key `IntegrityError` instead of writing
the value (first conjunct); only a store without a prior end_time
accepts the write (second conjunct). -/
theorem C8_end_time_write_fails_after_prior_completion :
    write_end_metadata C8_store_done "t2" = Except.error DBError.duplicateKey
    ∧ write_end_metadata C8_store_fresh "t2"
        = Except.ok (C8_store_fresh ++ [("end_time", "t2")]) := by
  exact ⟨rfl, rfl⟩

/-- C9: argparse restricts the --resume option string to True or False
(default False); `bool` of either non-empty string is `True`, so
`main` always constructs the store with resume = True and the fatal
FileExistsError branch of the constructor is unreachable through the
command-line entry point. -/
theorem C9_resume_flag_always_truthy (s : String) (path_exists : Bool)
    (h : s = "True" ∨ s = "False") :
    pyBoolOfStr s = true
    ∧ FileDBWrapper_init path_exists (some (pyBoolOfStr s)) ≠ PyInit.fileExistsError := by
  rcases h with h | h <;> subst h <;> cases path_exists <;> exact ⟨rfl, by decide⟩

theorem C9_resume_flag_always_truthy_witness :
    (("False" : String) = "True" ∨ ("False" : String) = "False")
    ∧ pyBoolOfStr "False" = true
    ∧ FileDBWrapper_init true (some (pyBoolOfStr "False")) ≠ PyInit.fileExistsError :=
  ⟨Or.inr rfl,
    (C9_resume_flag_always_truthy "False" true (Or.inr rfl)).1,
    (C9_resume_flag_always_truthy "False" true (Or.inr rfl)).2⟩

/-- C10 counterexample: on the resume store (number_restarts 0,
last_resume_time t0), `update_start_metadata` leaves the table
completely unchanged — neither key holds the incremented counter
string 1 afterwards, refuting the claim that the string form of the
incremented counter is stored under both keys. -/
theorem C10_counterexample_counter_not_stored :
    update_start_metadata "2026-10-12 00:00:00" C5_store = some C5_store
    ∧ ¬ (get_metadata_value C5_store "last_resume_time" = some "1")
    ∧ ¬ (get_metadata_value C5_store "number_restarts" = some "1") := by
  refine ⟨by decide, by decide, by decide⟩

/-- C10 (amended): `update_start_metadata` computes the incremented
counter string and passes it as the value of the metadata upsert for
both number_restarts and last_resume_time, but because the upsert's
UPDATE binds value and key in swapped order, the call leaves the
table unchanged whenever both keys already exist and no metadata key
equals the counter string; and its latest_update_time argument is
never written to the store (the result does not depend on it). -/
theorem C10_update_start_metadata_noop
    (db : List (String × String)) (t1 t2 s : String) (n : Int)
    (h1 : get_metadata_value db "number_restarts" = some s)
    (h2 : pyInt s = some n)
    (h3 : does_metadata_key_exist db "number_restarts" = true)
    (h4 : does_metadata_key_exist db "last_resume_time" = true)
    (h5 : ∀ kv ∈ db, kv.1 ≠ toString (n + 1)) :
    update_start_metadata t1 db = some db
    ∧ update_start_metadata t1 db = update_start_metadata t2 db := by
  have hupd : ∀ k : String, does_metadata_key_exist db k = true →
      write_or_update_single_metadatum db k (toString (n + 1)) = db := by
    intro k hk
    simp only [write_or_update_single_metadatum, hk, if_true]
    apply list_map_id_of_mem
    intro kv hkv
    simp [h5 kv hkv]
  constructor
  · simp only [update_start_metadata, h1, h2]
    rw [hupd _ h3, hupd _ h4]
  · rfl

theorem C10_update_start_metadata_noop_witness :
    (get_metadata_value C5_store "number_restarts" = some "0")
    ∧ (pyInt "0" = some 0)
    ∧ update_start_metadata "ta" C5_store = some C5_store
    ∧ update_start_metadata "ta" C5_store = update_start_metadata "tb" C5_store := by
  have h := C10_update_start_metadata_noop C5_store "ta" "tb" "0" 0
    (by decide) (by decide) (by decide) (by decide) (by decide)
  exact ⟨by decide, by decide, h.1, h.2⟩
